import Mathlib

set_option autoImplicit false

namespace Vidoer

/-! Shallow embedding of the vidoer upload-validation and video-processing
subsystem: the `FileUtils` class (backend utils/fileUtils.ts), the
`VideoService` class (backend services/videoService.ts), the upload
middleware pair (backend middleware/videoMiddleware.ts), and the two
Express upload handlers (backend index.ts and the `createServer` handler
exercised by the API tests).

Files are modelled as lists of byte values and the filesystem as an
association list from paths to contents together with a set of existing
directories (file and directory namespaces are kept disjoint, which is how
the upload directory is actually used).  JavaScript numbers are modelled
by `Nat`/`Int`: every quantity involved is an integer far below `2 ^ 53`,
where binary64 arithmetic is exact. -/

/-- Contents of a stored file, as byte values; `stat.size` is the length. -/
abbrev FileContent := List Nat

/-- The filesystem visible to the subsystem: existing regular files with
their contents, and existing directories. -/
structure FileSys where
  files : List (String × FileContent)
  dirs : List String
deriving Repr, DecidableEq

/-- `fs.readFileSync p` (and the data behind `fs.statSync p`): the
contents of regular file `p`, or `none` when it does not exist. -/
def FileSys.lookupFile (fs : FileSys) (p : String) : Option FileContent :=
  match fs.files.find? (fun e => e.1 == p) with
  | some e => some e.2
  | none => none

/-- `fs.existsSync p` for a regular file. -/
def FileSys.existsFile (fs : FileSys) (p : String) : Bool :=
  (fs.lookupFile p).isSome

/-- Node `path.basename p`: the part of `p` after its last slash. -/
def basenameOf (p : String) : String :=
  String.mk ((p.data.reverse.takeWhile (fun c => c != '/')).reverse)

/-- Node `path.extname p`: the suffix of the basename starting at its
last dot, when that dot exists and is not the basename's first
character; otherwise the empty string. -/
def extname (p : String) : String :=
  let b := (basenameOf p).data
  let took := b.reverse.takeWhile (fun c => c != '.')
  if took.length + 1 < b.length then String.mk ('.' :: took.reverse) else ""

/-- Node `path.basename p ext`: the basename with a trailing `ext`
removed when `ext` is a proper suffix of it. -/
def basenameMinus (p ext : String) : String :=
  let b := (basenameOf p).data
  let e := ext.data
  if e.reverse.isPrefixOf b.reverse && decide (e.length < b.length) then
    String.mk (b.take (b.length - e.length))
  else
    String.mk b

/-- Node `path.dirname p`: everything before the last slash, `"."` when
there is no slash, `"/"` for a file directly under the root.  (Trailing
slash edge cases do not arise: the only use is on output paths of the
form `uploads/<name>.mp4`.) -/
def dirname (p : String) : String :=
  match p.data.reverse.dropWhile (fun c => c != '/') with
  | [] => "."
  | _ :: [] => "/"
  | _ :: tail => String.mk tail.reverse

/-- `FileUtils.MAX_IMAGE_SIZE` (bytes). -/
def MAX_IMAGE_SIZE : Nat := 10 * 1024 * 1024

/-- `FileUtils.MAX_AUDIO_SIZE` (bytes). -/
def MAX_AUDIO_SIZE : Nat := 50 * 1024 * 1024

/-- `FileUtils.ALLOWED_IMAGE_TYPES`. -/
def ALLOWED_IMAGE_TYPES : List String :=
  [".jpg", ".jpeg", ".png", ".gif", ".bmp", ".webp"]

/-- `FileUtils.ALLOWED_AUDIO_TYPES`. -/
def ALLOWED_AUDIO_TYPES : List String :=
  [".mp3", ".wav", ".aac", ".m4a", ".flac", ".ogg"]

/-- JavaScript `String.prototype.toLowerCase`, character by character
(the extensions at issue are ASCII, where this agrees with it). -/
def lowerStr (s : String) : String :=
  String.mk (s.data.map Char.toLower)

/-- The `fileInfo` payload of a successful validation. -/
structure FileInfo where
  size : Nat
  type : String
  extension : String
deriving Repr, DecidableEq

/-- `FileValidationResult` from fileUtils.ts. -/
structure FileValidationResult where
  isValid : Bool
  error : Option String := none
  fileInfo : Option FileInfo := none
deriving Repr, DecidableEq

/-- `FileUtils.validateImageFile`: existence, then size ceiling, then
extension whitelist, in the source's order.  The interpolated size limit
`MAX_IMAGE_SIZE / (1024 * 1024)` renders as a decimal numeral exactly as
the JavaScript template literal renders the number `10`. -/
def validateImageFile (fs : FileSys) (filePath : String) : FileValidationResult :=
  match fs.lookupFile filePath with
  | none => { isValid := false, error := some "File does not exist" }
  | some content =>
    let size := content.length
    let extension := lowerStr (extname filePath)
    if MAX_IMAGE_SIZE < size then
      { isValid := false
        error := some ("Image file too large. Maximum size: "
          ++ Nat.repr (MAX_IMAGE_SIZE / (1024 * 1024)) ++ "MB") }
    else if ALLOWED_IMAGE_TYPES.contains extension = false then
      { isValid := false
        error := some ("Invalid image format. Allowed types: "
          ++ String.intercalate ", " ALLOWED_IMAGE_TYPES) }
    else
      { isValid := true, fileInfo := some ⟨size, "image", extension⟩ }

/-- `FileUtils.validateAudioFile`, mirroring `validateImageFile` with the
audio ceiling and whitelist. -/
def validateAudioFile (fs : FileSys) (filePath : String) : FileValidationResult :=
  match fs.lookupFile filePath with
  | none => { isValid := false, error := some "File does not exist" }
  | some content =>
    let size := content.length
    let extension := lowerStr (extname filePath)
    if MAX_AUDIO_SIZE < size then
      { isValid := false
        error := some ("Audio file too large. Maximum size: "
          ++ Nat.repr (MAX_AUDIO_SIZE / (1024 * 1024)) ++ "MB") }
    else if ALLOWED_AUDIO_TYPES.contains extension = false then
      { isValid := false
        error := some ("Invalid audio format. Allowed types: "
          ++ String.intercalate ", " ALLOWED_AUDIO_TYPES) }
    else
      { isValid := true, fileInfo := some ⟨size, "audio", extension⟩ }

/-- `FileUtils.ensureDirectoryExists` (also inlined in
`VideoService.processVideo`): `mkdirSync { recursive: true }` guarded by
`existsSync`. -/
def ensureDirectoryExists (fs : FileSys) (dirPath : String) : FileSys :=
  if fs.dirs.contains dirPath then fs else { fs with dirs := dirPath :: fs.dirs }

/-- `FileUtils.generateUniqueFilename`.  The two values drawn inside the
source body are explicit arguments: `timestamp` is `Date.now()` (an
integer number of milliseconds) and `random` is
`Math.random().toString(36).substring(2, 8)` (a possibly empty string of
base-36 digit characters, so it never contains an underscore).  `pfx` is
the optional `prefix` parameter. -/
def generateUniqueFilename (timestamp : Nat) (random : String)
    (originalName : String) (pfx : Option String) : String :=
  let extension := extname originalName
  let baseName := basenameMinus originalName extension
  match pfx with
  | some p =>
    p ++ "_" ++ Nat.repr timestamp ++ "_" ++ random ++ "_" ++ baseName ++ extension
  | none =>
    Nat.repr timestamp ++ "_" ++ random ++ "_" ++ baseName ++ extension

/-- Effect of `FileUtils.cleanupFiles paths`: each path that exists is
unlinked, missing ones are skipped; the returned list is exactly the set
of paths actually deleted. -/
def cleanupFiles (fs : FileSys) (paths : List String) : List String :=
  paths.filter (fun p => fs.existsFile p)

/-- One directory entry as observed by `FileUtils.cleanOldFiles`.
`opFails` models the per-entry `try`/`catch`: a `stat` or `unlink` that
throws is logged and skipped, leaving the entry in place and the count
unchanged. -/
structure DirEntry where
  name : String
  mtimeMs : Int
  isFile : Bool
  opFails : Bool
deriving Repr, DecidableEq

/-- The `for` loop of `FileUtils.cleanOldFiles`: returns the number of
entries deleted and the entries that survive, in order. -/
def cleanOldFilesLoop (now maxAgeMs : Int) : List DirEntry → Nat × List DirEntry
  | [] => (0, [])
  | e :: es =>
    let r := cleanOldFilesLoop now maxAgeMs es
    if e.opFails then (r.1, e :: r.2)
    else if now - e.mtimeMs > maxAgeMs ∧ e.isFile then (r.1 + 1, r.2)
    else (r.1, e :: r.2)

/-- `FileUtils.cleanOldFiles dirPath maxAgeMs`: `dir` is the directory's
listing, or `none` when `dirPath` does not exist (in which case the
source returns 0 without touching anything). -/
def cleanOldFiles (now maxAgeMs : Int) (dir : Option (List DirEntry)) :
    Nat × List DirEntry :=
  match dir with
  | none => (0, [])
  | some entries => cleanOldFilesLoop now maxAgeMs entries

/-- The source's `sizes` array in `FileUtils.formatFileSize`. -/
def fileSizeUnits : List String := ["B", "KB", "MB", "GB"]

/-- The JavaScript read `sizes[i]`: an out-of-range index yields
`undefined`, which the template literal renders as the text
`"undefined"`. -/
def fileSizeUnit (i : Nat) : String := fileSizeUnits.getD i "undefined"

/-- `FileUtils.formatFileSize`.  For a positive integer `bytes`,
`Math.floor (Math.log bytes / Math.log 1024)` is `Nat.log 1024 bytes`
(the binary64 computation is exact at every input at issue), and
`(bytes / 1024 ** i).toFixed 1` is modelled by half-up rounding of the
exact rational `bytes / 1024 ^ i` to one decimal digit — at every input
at issue the scaled value `10 * bytes / 1024 ^ i` is an integer, so no
rounding happens at all. -/
def formatFileSize (bytes : Nat) : String :=
  if bytes = 0 then "0 B"
  else
    let i := Nat.log 1024 bytes
    let p := 1024 ^ i
    let n := (20 * bytes + p) / (2 * p)
    Nat.repr (n / 10) ++ "." ++ Nat.repr (n % 10) ++ " " ++ fileSizeUnit i

/-- One JavaScript check
`signature.every ((byte, index) => buffer[index] === byte)`: reading past
the end of the buffer yields `undefined`, and the strict comparison with
a byte fails. -/
def matchesSignature : List Nat → FileContent → Bool
  | [], _ => true
  | _ :: _, [] => false
  | s :: ss, b :: bs => s == b && matchesSignature ss bs

/-- The signature table of `FileUtils.isImageFile`, checked in the
source's iteration order (jpg, png, gif, bmp, webp).  The webp entry is
the contiguous eight bytes `RIFFWEBP` compared against bytes 0–7. -/
def imageSignatureCheck (buffer : FileContent) : Bool :=
  matchesSignature [0xFF, 0xD8, 0xFF] buffer ||
  matchesSignature [0x89, 0x50, 0x4E, 0x47] buffer ||
  matchesSignature [0x47, 0x49, 0x46] buffer ||
  matchesSignature [0x42, 0x4D] buffer ||
  matchesSignature [0x52, 0x49, 0x46, 0x46, 0x57, 0x45, 0x42, 0x50] buffer

/-- `FileUtils.isImageFile`: `readFileSync` of a missing file throws and
the `catch` returns false; otherwise the signature table decides. -/
def isImageFile (fs : FileSys) (filePath : String) : Bool :=
  match fs.lookupFile filePath with
  | none => false
  | some buffer => imageSignatureCheck buffer

/-- One byte read `buffer[i] === v` with `undefined` on out-of-range
(0x100 can never equal a byte value). -/
def byteAt (buffer : FileContent) (i v : Nat) : Bool :=
  buffer.getD i 0x100 == v

/-- The body of `FileUtils.isAudioFile` on a successfully read buffer:
the split WAV check (RIFF at 0–3 and WAVE at 8–11, guarded by
`buffer.length >= 12`), then mp3 frame sync, fLaC, OggS, and the ID3v2
tag. -/
def audioSignatureCheck (buffer : FileContent) : Bool :=
  (decide (12 ≤ buffer.length) &&
    byteAt buffer 0 0x52 && byteAt buffer 1 0x49 &&
    byteAt buffer 2 0x46 && byteAt buffer 3 0x46 &&
    byteAt buffer 8 0x57 && byteAt buffer 9 0x41 &&
    byteAt buffer 10 0x56 && byteAt buffer 11 0x45) ||
  matchesSignature [0xFF, 0xFB] buffer ||
  matchesSignature [0x66, 0x4C, 0x61, 0x43] buffer ||
  matchesSignature [0x4F, 0x67, 0x67, 0x53] buffer ||
  matchesSignature [0x49, 0x44, 0x33] buffer

/-- `FileUtils.isAudioFile`. -/
def isAudioFile (fs : FileSys) (filePath : String) : Bool :=
  match fs.lookupFile filePath with
  | none => false
  | some buffer => audioSignatureCheck buffer

/-- `VideoProcessingOptions` from videoService.ts, defaults included. -/
structure VideoProcessingOptions where
  imagePath : String
  audioPath : String
  outputPath : String
  size : String := "1920x1080"
  audioCodec : String := "aac"
  videoCodec : String := "libx264"
  audioBitrate : String := "192k"
deriving Repr, DecidableEq

/-- `VideoProcessingResult` from videoService.ts. -/
structure VideoProcessingResult where
  success : Bool
  outputPath : Option String := none
  error : Option String := none
deriving Repr, DecidableEq

/-- The synchronous part of one `VideoService.processVideo` call:
either it resolved early (with the resolution value) before any encoder
work, or the encoder process was started; `fsAfter` records the
directory creation performed before the start. -/
structure ProcessTrace where
  resolvedEarly : Option VideoProcessingResult
  encoderStarted : Bool
  fsAfter : FileSys
deriving Repr, DecidableEq

/-- `VideoService.processVideo`, up to the point where control is handed
to the external encoder: both input paths are checked synchronously with
`existsSync`; on a missing input it resolves at once with
`success: false` and the describing message, and no encoder command is
built; otherwise the output file's directory is created if missing and
the encoder is started. -/
def VideoService.processVideo (fs : FileSys) (o : VideoProcessingOptions) :
    ProcessTrace :=
  if fs.existsFile o.imagePath = false then
    { resolvedEarly := some
        { success := false, error := some ("Image file not found: " ++ o.imagePath) }
      encoderStarted := false
      fsAfter := fs }
  else if fs.existsFile o.audioPath = false then
    { resolvedEarly := some
        { success := false, error := some ("Audio file not found: " ++ o.audioPath) }
      encoderStarted := false
      fsAfter := fs }
  else
    { resolvedEarly := none
      encoderStarted := true
      fsAfter := ensureDirectoryExists fs (dirname o.outputPath) }

/-- The eventual resolution of `VideoService.processVideo` once the
external encoder (modelled by its outcome: `none` is the `end` event,
`some msg` an `error` event with message `msg`) has completed. -/
def VideoService.processVideoResult (fs : FileSys) (encoder : Option String)
    (o : VideoProcessingOptions) : VideoProcessingResult :=
  match (VideoService.processVideo fs o).resolvedEarly with
  | some r => r
  | none =>
    match encoder with
    | none => { success := true, outputPath := some o.outputPath }
    | some msg => { success := false, error := some msg }

/-- One uploaded file as the multipart parser hands it to a handler. -/
structure UploadedFile where
  path : String
deriving Repr, DecidableEq

/-- The two file fields of `req.files` when the parser ran. -/
structure UploadFiles where
  image : Option UploadedFile
  audio : Option UploadedFile
deriving Repr, DecidableEq

/-- An upload request: `files = none` models an absent `req.files`
(no multipart body was parsed). -/
structure UploadRequest where
  files : Option UploadFiles
deriving Repr, DecidableEq

/-- An HTTP response; `jsonPath` carries the `path` member of a JSON
body when one is sent. -/
structure HttpResponse where
  status : Nat
  body : String
  jsonPath : Option String := none
deriving Repr, DecidableEq

/-- Outcome of `uploadMiddleware`: an immediate response (with the list
of files deleted by `cleanupFiles` before responding), or `next()` with
the two files it forwards. -/
inductive MwAction where
  | respond (status : Nat) (body : String) (deleted : List String)
  | nextStep (image audio : UploadedFile)
deriving Repr, DecidableEq

/-- `uploadMiddleware` from videoMiddleware.ts: one fixed 400 body for
every missing-field combination; both validators run, the image result
is checked first, and only the offending file is cleaned up. -/
def uploadMiddleware (fs : FileSys) (req : UploadRequest) : MwAction :=
  match req.files with
  | none => .respond 400 "Both image and audio files are required." []
  | some fls =>
    match fls.image, fls.audio with
    | none, _ => .respond 400 "Both image and audio files are required." []
    | some _, none => .respond 400 "Both image and audio files are required." []
    | some image, some audio =>
      let imageValidation := validateImageFile fs image.path
      let audioValidation := validateAudioFile fs audio.path
      if imageValidation.isValid = false then
        .respond 400 ("Image validation failed: " ++ imageValidation.error.getD "undefined")
          (cleanupFiles fs [image.path])
      else if audioValidation.isValid = false then
        .respond 400 ("Audio validation failed: " ++ audioValidation.error.getD "undefined")
          (cleanupFiles fs [audio.path])
      else
        .nextStep image audio

/-- The `processVideo` route handler from videoMiddleware.ts: builds the
processing request with output path `<timestamp>_output.mp4` under the
uploads directory and maps the `VideoService` result to HTTP.  It never
deletes any file. -/
def processVideoHandler (fs : FileSys) (encoder : Option String) (now : Nat)
    (image audio : UploadedFile) : HttpResponse :=
  let outputPath := "uploads/" ++ Nat.repr now ++ "_output.mp4"
  let result := VideoService.processVideoResult fs encoder
    { imagePath := image.path, audioPath := audio.path, outputPath := outputPath }
  if result.success then
    { status := 200, body := "Video generated successfully!", jsonPath := result.outputPath }
  else
    { status := 500, body := "Error generating video: " ++ result.error.getD "undefined" }

/-- One whole request through the middleware-based route: the middleware
runs first and, when it calls `next()`, the `processVideo` handler runs.
Returns the response together with every uploaded file deleted at any
point during the request. -/
def handleUploadRequest (fs : FileSys) (encoder : Option String) (now : Nat)
    (req : UploadRequest) : HttpResponse × List String :=
  match uploadMiddleware fs req with
  | .respond status body deleted => ({ status := status, body := body }, deleted)
  | .nextStep image audio => (processVideoHandler fs encoder now image audio, [])

/-- Outcome of the backend index.ts handler: a response, or an exception
escaping the handler (Express then produces its own error response,
which is not a 400). -/
inductive IndexOutcome where
  | response (r : HttpResponse)
  | thrown
deriving Repr, DecidableEq

/-- The `app.post` upload handler in backend index.ts: only an absent
`req.files` yields the 400; otherwise `files['image'][0]` and
`files['audio'][0]` are read unguarded, and indexing the `undefined`
field of a request that lacks one of them throws a TypeError. -/
def indexUploadHandler (encoder : Option String) (req : UploadRequest) :
    IndexOutcome :=
  match req.files with
  | none => .response { status := 400, body := "No files were uploaded." }
  | some fls =>
    match fls.image with
    | none => .thrown
    | some _image =>
      match fls.audio with
      | none => .thrown
      | some _audio =>
        match encoder with
        | none => .response
            { status := 200, body := "Video generated successfully!"
              jsonPath := some "./uploads/output.mp4" }
        | some _err => .response { status := 500, body := "Error generating video." }

/-- The `createServer` upload handler exercised by the repository's API
tests: a generic 400 when no multipart body was parsed, then one 400 per
missing field, naming it. -/
def serverUploadHandler (encoder : Option String) (req : UploadRequest) :
    HttpResponse :=
  match req.files with
  | none => { status := 400, body := "No files were uploaded." }
  | some fls =>
    match fls.image with
    | none => { status := 400, body := "Image file is required." }
    | some _image =>
      match fls.audio with
      | none => { status := 400, body := "Audio file is required." }
      | some _audio =>
        match encoder with
        | none =>
          { status := 200, body := "Video generated successfully!"
            jsonPath := some "./uploads/output.mp4" }
        | some _err => { status := 500, body := "Error generating video." }

/-- Reads a decimal digit string back into a number; the left inverse of
`Nat.repr` used to prove `Nat.repr` injective. -/
def decodeDigits (l : List Char) : Nat :=
  l.foldl (fun a c => 10 * a + (c.toNat - 48)) 0

/-! Helper lemmas. -/

/-- A signature matches exactly when it is the corresponding leading
slice of the buffer. -/
theorem matchesSignature_iff_take (sig buf : List Nat) :
    matchesSignature sig buf = true ↔ buf.take sig.length = sig := by
  induction sig generalizing buf with
  | nil => simp [matchesSignature]
  | cons s ss ih =>
    cases buf with
    | nil => simp [matchesSignature]
    | cons b bs =>
      simp only [matchesSignature, Bool.and_eq_true, beq_iff_eq, ih,
        List.length_cons, List.take_succ_cons, List.cons.injEq]
      constructor
      · rintro ⟨rfl, h⟩; exact ⟨rfl, h⟩
      · rintro ⟨rfl, h⟩; exact ⟨rfl, h⟩

/-- The loop of `cleanOldFiles` deletes exactly the non-failing regular
files strictly older than the cutoff, keeps everything else in order,
and counts the deletions. -/
theorem cleanOldFilesLoop_spec (now maxAgeMs : Int) (entries : List DirEntry) :
    cleanOldFilesLoop now maxAgeMs entries =
      ((entries.filter
          (fun e => !e.opFails && decide (now - e.mtimeMs > maxAgeMs) && e.isFile)).length,
        entries.filter
          (fun e => !(!e.opFails && decide (now - e.mtimeMs > maxAgeMs) && e.isFile))) := by
  induction entries with
  | nil => simp [cleanOldFilesLoop]
  | cons e es ih =>
    simp only [cleanOldFilesLoop, ih, List.filter]
    by_cases hf : e.opFails = true
    · simp [hf]
    · have hf' : e.opFails = false := by
        cases h : e.opFails
        · rfl
        · exact absurd h hf
      by_cases hm : now - e.mtimeMs > maxAgeMs
      · by_cases hi : e.isFile = true
        · simp [hf', hm, hi]
        · have hi' : e.isFile = false := by
            cases h : e.isFile
            · rfl
            · exact absurd h hi
          simp [hf', hm, hi']
      · simp [hf', hm]

/-- Indexing the unit array at or past its length yields the
out-of-range marker. -/
theorem fileSizeUnit_eq_undefined (i : Nat) (h : 4 ≤ i) :
    fileSizeUnit i = "undefined" := by
  have hlen : fileSizeUnits.length ≤ i := by
    simpa [fileSizeUnits] using h
  simp [fileSizeUnit, List.getD_eq_getElem?_getD, List.getElem?_eq_none hlen]

/-- `Nat.digitChar` never produces an underscore. -/
theorem digitChar_ne_underscore (n : Nat) : Nat.digitChar n ≠ '_' := by
  rcases Nat.lt_or_ge n 16 with h | h
  · interval_cases n <;> decide
  · have h1 : Nat.digitChar n = '*' := by
      unfold Nat.digitChar
      repeat rw [if_neg (by omega)]
    rw [h1]
    decide

/-- No character of a `Nat.toDigitsCore` rendering is an underscore,
provided none in the accumulator is. -/
theorem toDigitsCore_ne_underscore :
    ∀ (f n : Nat) (acc : List Char), (∀ c ∈ acc, c ≠ '_') →
      ∀ c ∈ Nat.toDigitsCore 10 f n acc, c ≠ '_' := by
  intro f
  induction f with
  | zero =>
    intro n acc hacc c hc
    simp only [Nat.toDigitsCore] at hc
    exact hacc c hc
  | succ f ih =>
    intro n acc hacc c hc
    simp only [Nat.toDigitsCore] at hc
    have hcons : ∀ d ∈ Nat.digitChar (n % 10) :: acc, d ≠ '_' := by
      intro d hd
      rcases List.mem_cons.1 hd with h | h
      · subst h; exact digitChar_ne_underscore (n % 10)
      · exact hacc d h
    split at hc
    · exact hcons c hc
    · exact ih (n / 10) (Nat.digitChar (n % 10) :: acc) hcons c hc

/-- `Nat.toDigitsCore` only prepends to its accumulator. -/
theorem toDigitsCore_append10 :
    ∀ (f n : Nat) (a b : List Char),
      Nat.toDigitsCore 10 f n (a ++ b) = Nat.toDigitsCore 10 f n a ++ b := by
  intro f
  induction f with
  | zero => intro n a b; simp [Nat.toDigitsCore]
  | succ f ih =>
    intro n a b
    simp only [Nat.toDigitsCore]
    split
    · simp
    · rw [show Nat.digitChar (n % 10) :: (a ++ b)
            = (Nat.digitChar (n % 10) :: a) ++ b from rfl, ih]

/-- Value of a single digit character. -/
theorem digitChar_val (m : Nat) (h : m < 10) :
    (Nat.digitChar m).toNat - 48 = m := by
  interval_cases m <;> decide

/-- `decodeDigits` reads back what `Nat.toDigitsCore` wrote. -/
theorem decodeDigits_toDigitsCore :
    ∀ (f n : Nat), n < f → decodeDigits (Nat.toDigitsCore 10 f n []) = n := by
  intro f
  induction f with
  | zero => intro n hn; omega
  | succ f ih =>
    intro n hn
    simp only [Nat.toDigitsCore]
    split
    · rename_i h0
      have hlt : n < 10 := by omega
      have hm : n % 10 = n := Nat.mod_eq_of_lt hlt
      simp [decodeDigits, hm, digitChar_val n hlt]
    · rename_i h0
      have hge : 10 ≤ n := by omega
      have h1 : n / 10 < f := by omega
      have happ := toDigitsCore_append10 f (n / 10) [] [Nat.digitChar (n % 10)]
      simp only [List.nil_append] at happ
      rw [happ]
      simp only [decodeDigits, List.foldl_append] at *
      rw [ih (n / 10) h1]
      simp only [List.foldl]
      have := digitChar_val (n % 10) (Nat.mod_lt n (by omega))
      omega

/-- Strings with equal character data are equal. -/
theorem stringData_inj {s t : String} (h : s.data = t.data) : s = t := by
  cases s; cases t; exact congrArg String.mk (by simpa using h)

/-- The decimal rendering of a natural number is injective. -/
theorem repr_injective {m n : Nat} (h : Nat.repr m = Nat.repr n) : m = n := by
  have hd : Nat.toDigitsCore 10 (m + 1) m [] = Nat.toDigitsCore 10 (n + 1) n [] := by
    have := congrArg String.data h
    simpa [Nat.repr, Nat.toDigits, List.asString] using this
  have hm := decodeDigits_toDigitsCore (m + 1) m (Nat.lt_succ_self m)
  have hn := decodeDigits_toDigitsCore (n + 1) n (Nat.lt_succ_self n)
  rw [hd] at hm
  omega

/-- No character of `Nat.repr` is an underscore. -/
theorem repr_ne_underscore (n : Nat) : ∀ c ∈ (Nat.repr n).data, c ≠ '_' := by
  intro c hc
  have hdata : (Nat.repr n).data = Nat.toDigitsCore 10 (n + 1) n [] := by
    simp [Nat.repr, Nat.toDigits, List.asString]
  rw [hdata] at hc
  exact toDigitsCore_ne_underscore (n + 1) n [] (by simp) c hc

/-- Splitting an underscore-separated list at its first underscore. -/
theorem takeWhile_append_underscore (a x : List Char) (h : ∀ c ∈ a, c ≠ '_') :
    (a ++ '_' :: x).takeWhile (fun c => c != '_') = a ∧
    (a ++ '_' :: x).dropWhile (fun c => c != '_') = '_' :: x := by
  induction a with
  | nil =>
    constructor
    · simp [List.takeWhile]
    · simp [List.dropWhile]
  | cons c cs ih =>
    have hc : c ≠ '_' := h c (by simp)
    have hcs := ih (fun d hd => h d (by simp [hd]))
    constructor
    · simp [List.takeWhile_cons, bne_iff_ne, hc, hcs.1]
    · simp [List.dropWhile_cons, bne_iff_ne, hc, hcs.2]

/-- An underscore-free field pair with a common tail is uniquely
recoverable from its underscore-separated encoding. -/
theorem underscore_encoding_inj (t1 t2 r1 r2 tail : List Char)
    (h1 : ∀ c ∈ t1, c ≠ '_') (h2 : ∀ c ∈ t2, c ≠ '_')
    (h3 : ∀ c ∈ r1, c ≠ '_') (h4 : ∀ c ∈ r2, c ≠ '_')
    (heq : t1 ++ '_' :: (r1 ++ '_' :: tail) = t2 ++ '_' :: (r2 ++ '_' :: tail)) :
    t1 = t2 ∧ r1 = r2 := by
  have ht1 := takeWhile_append_underscore t1 (r1 ++ '_' :: tail) h1
  have ht2 := takeWhile_append_underscore t2 (r2 ++ '_' :: tail) h2
  have e1 : t1 = t2 := by rw [← ht1.1, ← ht2.1, heq]
  have e2 : '_' :: (r1 ++ '_' :: tail) = '_' :: (r2 ++ '_' :: tail) := by
    rw [← ht1.2, ← ht2.2, heq]
  have e3 : r1 ++ '_' :: tail = r2 ++ '_' :: tail := by
    simpa using e2
  have hr1 := takeWhile_append_underscore r1 tail h3
  have hr2 := takeWhile_append_underscore r2 tail h4
  have e4 : r1 = r2 := by rw [← hr1.1, ← hr2.1, e3]
  exact ⟨e1, e4⟩

/-- The directory ensured before encoding is present afterwards. -/
theorem ensureDirectoryExists_contains (fs : FileSys) (d : String) :
    (ensureDirectoryExists fs d).dirs.contains d = true := by
  unfold ensureDirectoryExists
  split
  · rename_i h
    simpa using h
  · simp

/-! Claims. -/

/-- C3: whenever the image path or the audio path of a
`VideoProcessingRequest` does not resolve to an existing file,
`processVideo` resolves with `success = false` and a message naming the
missing input, and the encoder is never started; when both exist, the
output file's directory is present (created if needed) at the moment
the encoder is started. -/
theorem processVideo_fail_fast :
    ∀ (fs : FileSys) (o : VideoProcessingOptions),
      (fs.lookupFile o.imagePath = none →
        VideoService.processVideo fs o =
          { resolvedEarly := some
              { success := false, error := some ("Image file not found: " ++ o.imagePath) }
            encoderStarted := false
            fsAfter := fs }) ∧
      ((fs.lookupFile o.imagePath).isSome = true → fs.lookupFile o.audioPath = none →
        VideoService.processVideo fs o =
          { resolvedEarly := some
              { success := false, error := some ("Audio file not found: " ++ o.audioPath) }
            encoderStarted := false
            fsAfter := fs }) ∧
      ((fs.lookupFile o.imagePath).isSome = true →
        (fs.lookupFile o.audioPath).isSome = true →
        (VideoService.processVideo fs o).resolvedEarly = none ∧
        (VideoService.processVideo fs o).encoderStarted = true ∧
        (VideoService.processVideo fs o).fsAfter.dirs.contains (dirname o.outputPath) = true) := by
  intro fs o
  refine ⟨fun h1 => ?_, fun h1 h2 => ?_, fun h1 h2 => ?_⟩
  · simp [VideoService.processVideo, FileSys.existsFile, h1]
  · simp [VideoService.processVideo, FileSys.existsFile, h1, h2]
  · simp [VideoService.processVideo, FileSys.existsFile, h1, h2]
    simpa using ensureDirectoryExists_contains fs (dirname o.outputPath)

/-- Witness for C3 at a concrete filesystem: with both inputs present the
encoder starts and the output directory exists; with the image missing
the call resolves early with the describing error. -/
theorem processVideo_fail_fast_witness :
    (VideoService.processVideo
        { files := [("i.png", [1]), ("a.mp3", [2])], dirs := [] }
        { imagePath := "i.png", audioPath := "a.mp3",
          outputPath := "uploads/out.mp4" }).encoderStarted = true ∧
    (VideoService.processVideo
        { files := [("i.png", [1]), ("a.mp3", [2])], dirs := [] }
        { imagePath := "i.png", audioPath := "a.mp3",
          outputPath := "uploads/out.mp4" }).fsAfter.dirs.contains
      (dirname "uploads/out.mp4") = true ∧
    VideoService.processVideo { files := [("a.mp3", [2])], dirs := [] }
        { imagePath := "i.png", audioPath := "a.mp3", outputPath := "uploads/out.mp4" } =
      { resolvedEarly := some
          { success := false, error := some "Image file not found: i.png" }
        encoderStarted := false
        fsAfter := { files := [("a.mp3", [2])], dirs := [] } } :=
  ⟨((processVideo_fail_fast
      { files := [("i.png", [1]), ("a.mp3", [2])], dirs := [] }
      { imagePath := "i.png", audioPath := "a.mp3",
        outputPath := "uploads/out.mp4" }).2.2 rfl rfl).2.1,
   ((processVideo_fail_fast
      { files := [("i.png", [1]), ("a.mp3", [2])], dirs := [] }
      { imagePath := "i.png", audioPath := "a.mp3",
        outputPath := "uploads/out.mp4" }).2.2 rfl rfl).2.2,
   (processVideo_fail_fast { files := [("a.mp3", [2])], dirs := [] }
      { imagePath := "i.png", audioPath := "a.mp3",
        outputPath := "uploads/out.mp4" }).1 rfl⟩

/-- C4: an existing file larger than 10 MiB fails image validation and an
existing file larger than 50 MiB fails audio validation, each with the
message stating the limit in binary megabytes, which the message
contains as the text 10MB respectively 50MB. -/
theorem validate_size_limit_messages :
    ∀ (fs : FileSys) (p : String) (content : FileContent),
      fs.lookupFile p = some content →
      (10 * 1024 * 1024 < content.length →
        validateImageFile fs p =
          { isValid := false, error := some "Image file too large. Maximum size: 10MB" } ∧
        List.IsInfix "10MB".data "Image file too large. Maximum size: 10MB".data) ∧
      (50 * 1024 * 1024 < content.length →
        validateAudioFile fs p =
          { isValid := false, error := some "Audio file too large. Maximum size: 50MB" } ∧
        List.IsInfix "50MB".data "Audio file too large. Maximum size: 50MB".data) := by
  intro fs p content h
  refine ⟨fun hsize => ⟨?_, ?_⟩, fun hsize => ⟨?_, ?_⟩⟩
  · simp only [validateImageFile, h]
    rw [if_pos (show MAX_IMAGE_SIZE < content.length by
      simpa [MAX_IMAGE_SIZE] using hsize)]
    rfl
  · exact ⟨"Image file too large. Maximum size: ".data, [], by decide⟩
  · simp only [validateAudioFile, h]
    rw [if_pos (show MAX_AUDIO_SIZE < content.length by
      simpa [MAX_AUDIO_SIZE] using hsize)]
    rfl
  · exact ⟨"Audio file too large. Maximum size: ".data, [], by decide⟩

/-- Witness for C4: files one byte over each ceiling produce exactly the
limit-naming errors. -/
theorem validate_size_limit_messages_witness :
    validateImageFile
        { files := [("big.png", List.replicate (10 * 1024 * 1024 + 1) 0)], dirs := [] }
        "big.png" =
      { isValid := false, error := some "Image file too large. Maximum size: 10MB" } ∧
    validateAudioFile
        { files := [("big.mp3", List.replicate (50 * 1024 * 1024 + 1) 0)], dirs := [] }
        "big.mp3" =
      { isValid := false, error := some "Audio file too large. Maximum size: 50MB" } := by
  constructor
  · exact ((validate_size_limit_messages
      { files := [("big.png", List.replicate (10 * 1024 * 1024 + 1) 0)], dirs := [] }
      "big.png" (List.replicate (10 * 1024 * 1024 + 1) 0) rfl).1
      (by rw [List.length_replicate]; omega)).1
  · exact ((validate_size_limit_messages
      { files := [("big.mp3", List.replicate (50 * 1024 * 1024 + 1) 0)], dirs := [] }
      "big.mp3" (List.replicate (50 * 1024 * 1024 + 1) 0) rfl).2
      (by rw [List.length_replicate]; omega)).1

/-- C6 counterexample: a well-formed WEBP file — RIFF at bytes 0–3, a
4-byte size, WEBP at bytes 8–11 — is rejected by `isImageFile`, because
the source compares the contiguous signature RIFFWEBP against
bytes 0–7. -/
theorem isImageFile_wellformed_webp_cex :
    isImageFile
      { files := [("w.webp",
          [0x52, 0x49, 0x46, 0x46, 0x1A, 0x00, 0x00, 0x00, 0x57, 0x45, 0x42, 0x50])]
        dirs := [] } "w.webp" = false := by
  decide

/-- C6 amended: `isImageFile` returns true exactly when the file exists
and its leading bytes match JPEG FF D8 FF, PNG 89 50 4E 47, GIF 47 49 46,
BMP 42 4D, or the contiguous eight bytes RIFFWEBP at offsets 0–7 (not
RIFF at 0–3 with WEBP at 8–11); a missing or unreadable file yields
false. -/
theorem isImageFile_signature_characterization :
    (∀ (fs : FileSys) (p : String), fs.lookupFile p = none → isImageFile fs p = false) ∧
    (∀ (fs : FileSys) (p : String) (buffer : FileContent),
      fs.lookupFile p = some buffer →
      (isImageFile fs p = true ↔
        buffer.take 3 = [0xFF, 0xD8, 0xFF] ∨
        buffer.take 4 = [0x89, 0x50, 0x4E, 0x47] ∨
        buffer.take 3 = [0x47, 0x49, 0x46] ∨
        buffer.take 2 = [0x42, 0x4D] ∨
        buffer.take 8 = [0x52, 0x49, 0x46, 0x46, 0x57, 0x45, 0x42, 0x50])) := by
  constructor
  · intro fs p h
    simp [isImageFile, h]
  · intro fs p buffer h
    simp only [isImageFile, h, imageSignatureCheck, Bool.or_eq_true,
      matchesSignature_iff_take]
    norm_num
    tauto

/-- Witness for C6: a PNG-signature buffer is accepted. -/
theorem isImageFile_signature_characterization_witness :
    isImageFile { files := [("x.png", [0x89, 0x50, 0x4E, 0x47, 0x0D])], dirs := [] }
      "x.png" = true :=
  (isImageFile_signature_characterization.2
      { files := [("x.png", [0x89, 0x50, 0x4E, 0x47, 0x0D])], dirs := [] }
      "x.png" [0x89, 0x50, 0x4E, 0x47, 0x0D] rfl).mpr
    (Or.inr (Or.inl (by decide)))

/-- C8: `cleanOldFiles` deletes exactly the non-failing regular-file
entries whose modification time is more than `maxAgeMs` before `now`,
leaves every other entry (newer files, directories, entries whose
stat/unlink failed) in place, returns the exact number deleted, and
returns 0 for a non-existent directory. -/
theorem cleanOldFiles_spec (now maxAgeMs : Int) (entries : List DirEntry) :
    cleanOldFiles now maxAgeMs none = (0, []) ∧
    (cleanOldFiles now maxAgeMs (some entries)).1 =
      (entries.filter
        (fun e => !e.opFails && decide (now - e.mtimeMs > maxAgeMs) && e.isFile)).length ∧
    (cleanOldFiles now maxAgeMs (some entries)).2 =
      entries.filter
        (fun e => !(!e.opFails && decide (now - e.mtimeMs > maxAgeMs) && e.isFile)) := by
  refine ⟨rfl, ?_, ?_⟩ <;> simp [cleanOldFiles, cleanOldFilesLoop_spec]

/-- C9: the format table of `formatFileSize` on the specified inputs. -/
theorem formatFileSize_table :
    formatFileSize 0 = "0 B" ∧
    formatFileSize 500 = "500.0 B" ∧
    formatFileSize 1024 = "1.0 KB" ∧
    formatFileSize 1048576 = "1.0 MB" ∧
    formatFileSize 1073741824 = "1.0 GB" ∧
    formatFileSize 1536 = "1.5 KB" := by
  have l500 : Nat.log 1024 500 = 0 :=
    Nat.log_eq_of_pow_le_of_lt_pow (by norm_num) (by norm_num)
  have l1024 : Nat.log 1024 1024 = 1 :=
    Nat.log_eq_of_pow_le_of_lt_pow (by norm_num) (by norm_num)
  have l1048576 : Nat.log 1024 1048576 = 2 :=
    Nat.log_eq_of_pow_le_of_lt_pow (by norm_num) (by norm_num)
  have l1073741824 : Nat.log 1024 1073741824 = 3 :=
    Nat.log_eq_of_pow_le_of_lt_pow (by norm_num) (by norm_num)
  have l1536 : Nat.log 1024 1536 = 1 :=
    Nat.log_eq_of_pow_le_of_lt_pow (by norm_num) (by norm_num)
  refine ⟨rfl, ?_, ?_, ?_, ?_, ?_⟩
  · simp only [formatFileSize, l500]; rfl
  · simp only [formatFileSize, l1024]; rfl
  · simp only [formatFileSize, l1048576]; rfl
  · simp only [formatFileSize, l1073741824]; rfl
  · simp only [formatFileSize, l1536]; rfl

/-- C10: for every size of at least 2^40 bytes the computed unit index
is past the end of the four-element unit array, so the rendered unit
token is the text undefined; in particular 2^40 formats as
1.0 undefined. -/
theorem formatFileSize_past_gb_undefined :
    (∀ bytes : Nat, 2 ^ 40 ≤ bytes →
      fileSizeUnit (Nat.log 1024 bytes) = "undefined" ∧
      ∃ m : String, formatFileSize bytes = m ++ "undefined") ∧
    formatFileSize (2 ^ 40) = "1.0 undefined" := by
  constructor
  · intro bytes h
    have hne : bytes ≠ 0 := by
      intro h0
      rw [h0] at h
      norm_num at h
    have hlog : 4 ≤ Nat.log 1024 bytes := by
      have h4 : (1024 : Nat) ^ 4 ≤ bytes := by
        calc (1024 : Nat) ^ 4 = 2 ^ 40 := by norm_num
        _ ≤ bytes := h
      exact (Nat.pow_le_iff_le_log (by norm_num) hne).1 h4
    have hunit := fileSizeUnit_eq_undefined _ hlog
    refine ⟨hunit, ?_⟩
    refine ⟨Nat.repr ((20 * bytes + 1024 ^ Nat.log 1024 bytes) /
        (2 * 1024 ^ Nat.log 1024 bytes) / 10) ++ "." ++
      Nat.repr ((20 * bytes + 1024 ^ Nat.log 1024 bytes) /
        (2 * 1024 ^ Nat.log 1024 bytes) % 10) ++ " ", ?_⟩
    simp only [formatFileSize, if_neg hne, hunit]
  · have hlog : Nat.log 1024 (2 ^ 40) = 4 :=
      Nat.log_eq_of_pow_le_of_lt_pow (by norm_num) (by norm_num)
    simp only [formatFileSize, hlog]
    rfl

/-- Witness for C10 at 2^40 + 5. -/
theorem formatFileSize_past_gb_undefined_witness :
    2 ^ 40 ≤ 2 ^ 40 + 5 ∧
    fileSizeUnit (Nat.log 1024 (2 ^ 40 + 5)) = "undefined" :=
  ⟨by norm_num,
   (formatFileSize_past_gb_undefined.1 (2 ^ 40 + 5) (by norm_num)).1⟩

/-- C1 counterexample: a file whose `.jpg` extension passes the
whitelist but whose leading bytes match no image signature is still
forwarded to the Video Processor as the image; the pipeline never
consults `isImageFile`. -/
theorem upload_sniffing_unused_cex :
    uploadMiddleware
        { files := [("spoof.jpg", [0, 0, 0, 0]), ("sound.mp3", [255, 251, 0, 0])]
          dirs := [] }
        { files := some
            { image := some { path := "spoof.jpg" }, audio := some { path := "sound.mp3" } } } =
      .nextStep { path := "spoof.jpg" } { path := "sound.mp3" } ∧
    isImageFile
      { files := [("spoof.jpg", [0, 0, 0, 0]), ("sound.mp3", [255, 251, 0, 0])]
        dirs := [] } "spoof.jpg" = false := by
  exact ⟨rfl, rfl⟩

/-- C1 amended: the upload pipeline checks each file only with the
extension-and-size validators; any pair passing `validateImageFile` and
`validateAudioFile` is forwarded to the Video Processor, with no
condition on the magic-byte predicates `isImageFile`/`isAudioFile`,
which the pipeline never invokes. -/
theorem upload_forwards_on_whitelist_only :
    ∀ (fs : FileSys) (encoder : Option String) (now : Nat) (fls : UploadFiles)
      (image audio : UploadedFile),
      fls.image = some image → fls.audio = some audio →
      (validateImageFile fs image.path).isValid = true →
      (validateAudioFile fs audio.path).isValid = true →
      uploadMiddleware fs { files := some fls } = .nextStep image audio ∧
      (handleUploadRequest fs encoder now { files := some fls }).1 =
        processVideoHandler fs encoder now image audio := by
  intro fs encoder now fls image audio hi ha hvi hva
  have hmw : uploadMiddleware fs { files := some fls } = .nextStep image audio := by
    simp [uploadMiddleware, hi, ha, hvi, hva]
  exact ⟨hmw, by simp [handleUploadRequest, hmw]⟩

/-- Witness for C1 at the spoofed filesystem: both validators pass, so
the pair is forwarded even though the image's bytes match no
signature. -/
theorem upload_forwards_on_whitelist_only_witness :
    uploadMiddleware
        { files := [("fake.png", [7, 7, 7]), ("tune.mp3", [1])], dirs := [] }
        { files := some
            { image := some { path := "fake.png" }, audio := some { path := "tune.mp3" } } } =
      .nextStep { path := "fake.png" } { path := "tune.mp3" } :=
  (upload_forwards_on_whitelist_only
    { files := [("fake.png", [7, 7, 7]), ("tune.mp3", [1])], dirs := [] }
    none 0
    { image := some { path := "fake.png" }, audio := some { path := "tune.mp3" } }
    { path := "fake.png" } { path := "tune.mp3" }
    rfl rfl (by decide) (by decide)).1

/-- C2 counterexample: on the index.ts handler a request carrying only
an image field makes the handler throw instead of answering 400, and
the middleware answers every missing-field case with one fixed body,
never the generic no-files message. -/
theorem index_handler_image_only_cex :
    indexUploadHandler none
        { files := some { image := some { path := "uploads/i.png" }, audio := none } } =
      .thrown ∧
    uploadMiddleware { files := [], dirs := [] } { files := none } =
      .respond 400 "Both image and audio files are required." [] := by
  exact ⟨rfl, rfl⟩

/-- C2 amended: the index.ts handler sends 400 No files were uploaded.
only when `req.files` is absent and throws on a request missing exactly
one field; `uploadMiddleware` answers 400 with the fixed body Both image
and audio files are required. for every missing-field combination; only
the test-suite `createServer` handler names the missing field and keeps
the generic body for an absent multipart body. -/
theorem missing_field_responses :
    (∀ encoder : Option String,
      indexUploadHandler encoder { files := none } =
        .response { status := 400, body := "No files were uploaded." }) ∧
    (∀ (encoder : Option String) (img : UploadedFile),
      indexUploadHandler encoder
        { files := some { image := some img, audio := none } } = .thrown) ∧
    (∀ (encoder : Option String) (aud : UploadedFile),
      indexUploadHandler encoder
        { files := some { image := none, audio := some aud } } = .thrown) ∧
    (∀ (fs : FileSys) (req : UploadRequest),
      (req.files = none ∨
        ∃ fls, req.files = some fls ∧ (fls.image = none ∨ fls.audio = none)) →
      uploadMiddleware fs req =
        .respond 400 "Both image and audio files are required." []) ∧
    (∀ encoder : Option String,
      serverUploadHandler encoder { files := none } =
        { status := 400, body := "No files were uploaded." }) ∧
    (∀ (encoder : Option String) (img : UploadedFile),
      serverUploadHandler encoder
        { files := some { image := some img, audio := none } } =
        { status := 400, body := "Audio file is required." }) ∧
    (∀ (encoder : Option String) (aud : UploadedFile),
      serverUploadHandler encoder
        { files := some { image := none, audio := some aud } } =
        { status := 400, body := "Image file is required." }) := by
  refine ⟨fun _ => rfl, fun _ _ => rfl, fun _ _ => rfl, ?_,
    fun _ => rfl, fun _ _ => rfl, fun _ _ => rfl⟩
  intro fs req h
  rcases h with h | ⟨fls, hf, hmiss⟩
  · simp [uploadMiddleware, h]
  · rcases hmiss with hi | ha
    · simp [uploadMiddleware, hf, hi]
    · rcases himg : fls.image with _ | img
      · simp [uploadMiddleware, hf, himg]
      · simp [uploadMiddleware, hf, himg, ha]

/-- Witness for C2 at concrete requests: the middleware's uniform 400
for an audio-only request. -/
theorem missing_field_responses_witness :
    uploadMiddleware { files := [], dirs := [] }
        { files := some { image := none, audio := some { path := "a.mp3" } } } =
      .respond 400 "Both image and audio files are required." [] :=
  missing_field_responses.2.2.2.1 { files := [], dirs := [] }
    { files := some { image := none, audio := some { path := "a.mp3" } } }
    (Or.inr ⟨{ image := none, audio := some { path := "a.mp3" } }, rfl, Or.inl rfl⟩)

/-- C5 counterexample: a fully successful request deletes nothing — both
uploaded files still exist when the 200 response is sent. -/
theorem upload_success_leaves_files_cex :
    handleUploadRequest
        { files := [("img.png", [1, 2, 3]), ("aud.mp3", [9])], dirs := [] } none 7
        { files := some
            { image := some { path := "img.png" }, audio := some { path := "aud.mp3" } } } =
      ({ status := 200, body := "Video generated successfully!"
         jsonPath := some "uploads/7_output.mp4" }, []) ∧
    FileSys.existsFile
      { files := [("img.png", [1, 2, 3]), ("aud.mp3", [9])], dirs := [] } "img.png" = true ∧
    FileSys.existsFile
      { files := [("img.png", [1, 2, 3]), ("aud.mp3", [9])], dirs := [] } "aud.mp3" = true := by
  exact ⟨rfl, rfl, rfl⟩

/-- C5 amended: on a validation failure exactly the offending file is
deleted before the 400 response; on missing fields, on successful
processing and on an encoder failure the request deletes nothing, and
the surviving uploads are left for the age-based purge. -/
theorem upload_cleanup_policy :
    ∀ (fs : FileSys) (encoder : Option String) (now : Nat) (req : UploadRequest),
      ((req.files = none ∨
          ∃ fls, req.files = some fls ∧ (fls.image = none ∨ fls.audio = none)) →
        (handleUploadRequest fs encoder now req).2 = []) ∧
      (∀ (fls : UploadFiles) (image audio : UploadedFile),
        req.files = some fls → fls.image = some image → fls.audio = some audio →
        ((validateImageFile fs image.path).isValid = false →
          (handleUploadRequest fs encoder now req).2 = cleanupFiles fs [image.path]) ∧
        ((validateImageFile fs image.path).isValid = true →
          (validateAudioFile fs audio.path).isValid = false →
          (handleUploadRequest fs encoder now req).2 = cleanupFiles fs [audio.path]) ∧
        ((validateImageFile fs image.path).isValid = true →
          (validateAudioFile fs audio.path).isValid = true →
          (handleUploadRequest fs encoder now req).2 = [])) := by
  intro fs encoder now req
  constructor
  · intro h
    rcases h with h | ⟨fls, hf, hmiss⟩
    · simp [handleUploadRequest, uploadMiddleware, h]
    · rcases hmiss with hi | ha
      · simp [handleUploadRequest, uploadMiddleware, hf, hi]
      · rcases himg : fls.image with _ | img
        · simp [handleUploadRequest, uploadMiddleware, hf, himg]
        · simp [handleUploadRequest, uploadMiddleware, hf, himg, ha]
  · intro fls image audio hf hi ha
    refine ⟨fun hvi => ?_, fun hvi hva => ?_, fun hvi hva => ?_⟩
    · simp [handleUploadRequest, uploadMiddleware, hf, hi, ha, hvi]
    · simp [handleUploadRequest, uploadMiddleware, hf, hi, ha, hvi, hva]
    · simp [handleUploadRequest, uploadMiddleware, hf, hi, ha, hvi, hva]

/-- Witness for C5: with a wrong-extension image and a valid audio, only
the image file is deleted; the audio file survives the 400. -/
theorem upload_cleanup_policy_witness :
    (handleUploadRequest { files := [("a.txt", [1]), ("b.mp3", [2])], dirs := [] }
        none 3
        { files := some
            { image := some { path := "a.txt" }, audio := some { path := "b.mp3" } } }).2 =
      cleanupFiles { files := [("a.txt", [1]), ("b.mp3", [2])], dirs := [] } ["a.txt"] :=
  (((upload_cleanup_policy { files := [("a.txt", [1]), ("b.mp3", [2])], dirs := [] }
      none 3
      { files := some
          { image := some { path := "a.txt" }, audio := some { path := "b.mp3" } } }).2
    { image := some { path := "a.txt" }, audio := some { path := "b.mp3" } }
    { path := "a.txt" } { path := "b.mp3" } rfl rfl rfl).1 (by decide))

/-- C7 counterexample: when the two calls draw the same timestamp and
the same random token — which nothing in the code rules out — the two
generated names are identical, so the names do not differ for every pair
of draws. -/
theorem generateUniqueFilename_equal_draws_cex :
    generateUniqueFilename 1700 "abc" "test.jpg" none =
      generateUniqueFilename 1700 "abc" "test.jpg" none ∧
    generateUniqueFilename 1700 "abc" "test.jpg" none = "1700_abc_test.jpg" := by
  exact ⟨rfl, rfl⟩

/-- C7 amended: two calls on the same original name collide only when
both draws coincide — whenever the timestamps or the tokens differ (the
token is drawn from base-36 digits, hence never contains an underscore)
the names differ; and every generated name contains the original base
name and ends with the original extension. -/
theorem generateUniqueFilename_distinct_draws :
    (∀ (t1 t2 : Nat) (r1 r2 name : String),
      (∀ c ∈ r1.data, c ≠ '_') → (∀ c ∈ r2.data, c ≠ '_') →
      (t1 ≠ t2 ∨ r1 ≠ r2) →
      generateUniqueFilename t1 r1 name none ≠ generateUniqueFilename t2 r2 name none) ∧
    (∀ (t : Nat) (r name : String),
      List.IsSuffix (extname name).data (generateUniqueFilename t r name none).data ∧
      List.IsInfix (basenameMinus name (extname name)).data
        (generateUniqueFilename t r name none).data) := by
  constructor
  · intro t1 t2 r1 r2 name h1 h2 hne heq
    have hd := congrArg String.data heq
    simp only [generateUniqueFilename, String.data_append,
      show ("_" : String).data = ['_'] from rfl, List.append_assoc,
      List.singleton_append] at hd
    obtain ⟨e1, e2⟩ := underscore_encoding_inj _ _ _ _ _
      (repr_ne_underscore t1) (repr_ne_underscore t2) h1 h2 hd
    rcases hne with hne | hne
    · exact hne (repr_injective (stringData_inj e1))
    · exact hne (stringData_inj e2)
  · intro t r name
    constructor
    · exact ⟨(Nat.repr t ++ "_" ++ r ++ "_" ++ basenameMinus name (extname name)).data,
        by simp [generateUniqueFilename, String.data_append]⟩
    · exact ⟨(Nat.repr t ++ "_" ++ r ++ "_").data, (extname name).data,
        by simp [generateUniqueFilename, String.data_append]⟩

/-- Witness for C7: draws differing in the timestamp give different
names, and the name generated from test.jpg keeps the base name and the
extension. -/
theorem generateUniqueFilename_distinct_draws_witness :
    generateUniqueFilename 0 "abc" "test.jpg" none ≠
      generateUniqueFilename 1 "abc" "test.jpg" none ∧
    List.IsSuffix ".jpg".data (generateUniqueFilename 0 "abc" "test.jpg" none).data ∧
    List.IsInfix "test".data (generateUniqueFilename 0 "abc" "test.jpg" none).data := by
  refine ⟨generateUniqueFilename_distinct_draws.1 0 1 "abc" "abc" "test.jpg"
    (by decide) (by decide) (Or.inl (by decide)), ?_, ?_⟩
  · have h := (generateUniqueFilename_distinct_draws.2 0 "abc" "test.jpg").1
    have he : extname "test.jpg" = ".jpg" := by decide
    rwa [he] at h
  · have h := (generateUniqueFilename_distinct_draws.2 0 "abc" "test.jpg").2
    have hb : basenameMinus "test.jpg" (extname "test.jpg") = "test" := by decide
    rwa [hb] at h

end Vidoer
